import Mathlib

/-
Verification development for a two-pass MIPS-like assembler core
(src/tables.c and src/translate.c). The C code is shallowly embedded:
pure functions become Lean functions, file output becomes an explicit
list of emitted items, machine integers become Nat/Int with explicit
mod 2^32 where overflow matters, and the (nonterminating) copy-back
loop of add_to_table is modelled with an explicit fuel parameter so
that nontermination is the statement that the loop exits for no fuel.
-/

namespace Assembler

/-! ## Symbol table (src/tables.c) -/

/-- Embeds the constant SYMTBL_NON_UNIQUE from src/tables.c line 9. -/
def SYMTBL_NON_UNIQUE : Int := 0

/-- Embeds the constant SYMTBL_UNIQUE_NAME from src/tables.c line 10. -/
def SYMTBL_UNIQUE_NAME : Int := 1

/-- Embeds the Symbol struct: a name and a 32-bit address (kept as Nat). -/
structure Symbol where
  name : String
  addr : Nat
deriving DecidableEq

/-- Embeds the SymbolTable struct: the stored entries in insertion order
plus the mode fixed at creation. The capacity field of the C struct is
not observable and is omitted. -/
structure SymbolTable where
  tbl : List Symbol
  mode : Int
deriving DecidableEq

/-- Embeds create_table (src/tables.c lines 46-64): an empty table whose
mode field stores the argument verbatim. -/
def create_table (mode : Int) : SymbolTable :=
  SymbolTable.mk [] mode

/-- Embeds the scan loop of add_to_table (src/tables.c lines 109-120):
walk the entries in order and report true as soon as an entry with the
given name is seen while the mode equals SYMTBL_UNIQUE_NAME. -/
def dupFound (mode : Int) (name : String) : List Symbol → Bool
  | [] => false
  | s :: rest =>
    if s.name == name && mode == SYMTBL_UNIQUE_NAME then true
    else dupFound mode name rest

/-- Embeds the copy-back loop of add_to_table (src/tables.c lines
132-135). The C loop is `while (i < table->len - 1) { table->tbl[i] =
copy[i]; }` with i starting at 0 and never incremented, so the loop
exits only when the bound is 0; the fuel argument counts loop
iterations and `none` means the fuel ran out with the loop still
running. -/
def copyBackLoop (i bound : Nat) : Nat → Option Unit
  | 0 => if i < bound then none else some ()
  | fuel + 1 => if i < bound then copyBackLoop i bound fuel else some ()

/-- Embeds add_to_table (src/tables.c lines 97-142). Returns `none` when
the copy-back loop runs out of fuel (the C code loops forever there),
and otherwise `some` of the C return value paired with the table after
the call. On the two error paths the C code returns -1 before any
mutation; on the success path the realloc preserves the old entries and
the new symbol is stored in the last slot, so the entry list becomes
the old list with the new symbol appended. -/
def add_to_table (fuel : Nat) (table : SymbolTable) (name : String) (addr : Nat) :
    Option (Int × SymbolTable) :=
  if addr % 4 ≠ 0 then some (-1, table)
  else if dupFound table.mode name table.tbl then some (-1, table)
  else
    match copyBackLoop 0 table.tbl.length fuel with
    | none => none
    | some _ => some (0, SymbolTable.mk (table.tbl ++ [Symbol.mk name addr]) table.mode)

/-- Embeds the lookup loop of get_addr_for_symbol (src/tables.c lines
148-155): return the address of the first entry with the given name,
or -1 when none matches. -/
def lookupAux (name : String) : List Symbol → Int
  | [] => -1
  | s :: rest => if s.name == name then (s.addr : Int) else lookupAux name rest

/-- Embeds get_addr_for_symbol (src/tables.c lines 147-156). The C
function only reads the table, which the embedding reflects by not
returning a table at all. -/
def get_addr_for_symbol (table : SymbolTable) (name : String) : Int :=
  lookupAux name table.tbl

/-! ## Register and number parsing (translate_utils.c, not under src/) -/

/-- Modelled from the spec: the register-name map used by translate_reg
from translate_utils.c, which is missing from src/ (only the test file
references it). The spec calls valid register names the symbolic
aliases of registers 0 to 31; the repository test file additionally
fixes "$0" to 0 and "$3" to -1, so numeric names other than "$0" are
not included. Every stored register number is in 0..31. -/
def regList : List (String × Int) :=
  [("$zero", 0), ("$0", 0), ("$at", 1), ("$v0", 2), ("$v1", 3),
   ("$a0", 4), ("$a1", 5), ("$a2", 6), ("$a3", 7),
   ("$t0", 8), ("$t1", 9), ("$t2", 10), ("$t3", 11),
   ("$t4", 12), ("$t5", 13), ("$t6", 14), ("$t7", 15),
   ("$s0", 16), ("$s1", 17), ("$s2", 18), ("$s3", 19),
   ("$s4", 20), ("$s5", 21), ("$s6", 22), ("$s7", 23),
   ("$t8", 24), ("$t9", 25), ("$k0", 26), ("$k1", 27),
   ("$gp", 28), ("$sp", 29), ("$fp", 30), ("$ra", 31)]

/-- Modelled from the spec: translate_reg from the missing
translate_utils.c, returning the register number for a valid register
name and -1 otherwise. -/
def translate_reg (s : String) : Int :=
  match regList.find? (fun p => p.1 == s) with
  | some p => p.2
  | none => -1

/-- Value of a decimal digit character, or `none`. -/
def decDigitVal (c : Char) : Option Nat :=
  if c.isDigit then some (c.toNat - 48) else none

/-- Value of a hexadecimal digit character, or `none`. -/
def hexDigitVal (c : Char) : Option Nat :=
  if c.isDigit then some (c.toNat - 48)
  else if 97 ≤ c.toNat && c.toNat ≤ 102 then some (c.toNat - 87)
  else if 65 ≤ c.toNat && c.toNat ≤ 70 then some (c.toNat - 55)
  else none

/-- Accumulate digit values left to right; fail on the first character
that is not a digit of the base (the repository test requires "35x" to
be rejected, so trailing junk is a failure). -/
def parseDigits (base : Nat) (dv : Char → Option Nat) (acc : Nat) : List Char → Option Nat
  | [] => some acc
  | c :: cs =>
    match dv c with
    | some d => parseDigits base dv (acc * base + d) cs
    | none => none

/-- Modelled from the spec: the unsigned part of number parsing in the
missing translate_utils.c, accepting decimal and 0x/0X hexadecimal
forms. -/
def parseNumCore : List Char → Option Nat
  | '0' :: 'x' :: rest => if rest.isEmpty then none else parseDigits 16 hexDigitVal 0 rest
  | '0' :: 'X' :: rest => if rest.isEmpty then none else parseDigits 16 hexDigitVal 0 rest
  | [] => none
  | cs => parseDigits 10 decDigitVal 0 cs

/-- Modelled from the spec: full number parsing with an optional
leading minus sign. -/
def parseNum (s : String) : Option Int :=
  match s.toList with
  | '-' :: rest => (parseNumCore rest).map (fun m => -(m : Int))
  | cs => (parseNumCore cs).map (fun m => (m : Int))

/-- Modelled from the spec: translate_num from the missing
translate_utils.c. Parses the string and accepts the value exactly when
it lies in the inclusive range given by the two bounds, as fixed by the
repository test file (72 in [-16,72] accepted, 72 in [-16,71]
rejected). `none` stands for the C return value -1. -/
def translate_num (s : String) (lo hi : Int) : Option Int :=
  match parseNum s with
  | none => none
  | some v => if lo ≤ v ∧ v ≤ hi then some v else none

/-! ## Pass one (src/translate.c write_pass_one) -/

/-- Modelled from the spec: write_inst_string from the missing
translate_utils.c, printing the mnemonic followed by the operands on
one line. -/
def instString (name : String) (args : List String) : String :=
  name ++ String.join (args.map (fun a => " " ++ a))

/-- Embeds write_pass_one (src/translate.c lines 45-77). Every
pseudoinstruction branch of the C code is an unfilled stub that writes
nothing and returns 0; any other mnemonic is passed through as one
line. The result pairs the lines written to the output with the C
return value. -/
def write_pass_one (name : String) (args : List String) : List String × Nat :=
  if name == "li" then ([], 0)
  else if name == "move" then ([], 0)
  else if name == "blt" then ([], 0)
  else if name == "bgt" then ([], 0)
  else if name == "traddu" then ([], 0)
  else if name == "swpr" then ([], 0)
  else if name == "mul" then ([], 0)
  else if name == "div" then ([], 0)
  else if name == "rem" then ([], 0)
  else ([instString name args], 1)

/-! ## Pass two encoders (src/translate.c) -/

/-- Embeds the constant UINT_MAX as used at src/translate.c line 243. -/
def UINT_MAX : Int := 4294967295

/-- Embeds write_rtype (src/translate.c lines 130-150): check arity,
parse the three registers, and on success emit one word
rs shifted 21, rt shifted 16, rd shifted 11, plus funct, reduced
mod 2^32 as the C uint32 arithmetic does. Failure emits nothing and
returns -1. -/
def write_rtype (funct : Nat) (args : List String) : Int × List Nat :=
  match args with
  | [a0, a1, a2] =>
    let rd := translate_reg a0
    let rs := translate_reg a1
    let rt := translate_reg a2
    if rs = -1 ∨ rd = -1 ∨ rt = -1 then (-1, [])
    else
      (0, [(rs.toNat * 2 ^ 21 + rt.toNat * 2 ^ 16 + rd.toNat * 2 ^ 11 + funct) % 2 ^ 32])
  | _ => (-1, [])

/-- Embeds write_ori (src/translate.c lines 231-253). Note that the
range passed to translate_num there is 0 to UINT_MAX, not the unsigned
16-bit range; the accepted immediate is added into the word, so values
above 65535 spill into the register fields. -/
def write_ori (opcode : Nat) (args : List String) : Int × List Nat :=
  match args with
  | [a0, a1, a2] =>
    let rt := translate_reg a0
    let rs := translate_reg a1
    if rs = -1 ∨ rt = -1 then (-1, [])
    else
      match translate_num a2 0 UINT_MAX with
      | none => (-1, [])
      | some i =>
        (0, [(opcode * 2 ^ 26 + rs.toNat * 2 ^ 21 + rt.toNat * 2 ^ 16 + i.toNat) % 2 ^ 32])
  | _ => (-1, [])

/-- Two-complement reading of the low 32 bits of an integer, embedding
the C casts to int32_t. -/
def toSigned32 (x : Int) : Int :=
  let m := x % 4294967296
  if m < 2147483648 then m else m - 4294967296

/-- Embeds the constant TWO_POW_SEVENTEEN (src/translate.c line 10). -/
def TWO_POW_SEVENTEEN : Int := 131072

/-- Embeds can_branch_to (src/translate.c lines 307-310): the uint32
difference dest minus src is cast to int32 and must lie in
[0, 2^17] or [-(2^17 - 4), 0). -/
def can_branch_to (src_addr dest_addr : Nat) : Bool :=
  let diff := toSigned32 ((dest_addr : Int) - (src_addr : Int))
  (0 ≤ diff && diff ≤ TWO_POW_SEVENTEEN) ||
    (diff < 0 && -(TWO_POW_SEVENTEEN - 4) ≤ diff)

/-- Embeds the active write_branch (src/translate.c lines 313-331):
check arity, parse the two registers, look the label up (the int64
result is truncated to int as in the C declaration), and then
unconditionally emit the word 0 and return 0. No alignment or range
check is performed and can_branch_to is never called; the addr
parameter is unused. -/
def write_branch (opcode : Nat) (args : List String) (addr : Nat) (symtbl : SymbolTable) :
    Int × List Nat :=
  match args with
  | [a0, a1, a2] =>
    let rs := translate_reg a0
    let rt := translate_reg a1
    if rt = -1 ∨ rs = -1 then (-1, [])
    else
      let label_addr := toSigned32 (get_addr_for_symbol symtbl a2)
      if label_addr = -1 then (-1, [])
      else (0, [0])
  | _ => (-1, [])

/-- Embeds write_jump (src/translate.c lines 359-367): check arity,
call add_to_table on the relocation table with the label name and the
instruction address (the return value of that call is discarded by the
C code), then emit opcode shifted 26 and return 0. The fuel is passed
through to add_to_table; `none` again means the call never returns. -/
def write_jump (fuel : Nat) (opcode : Nat) (args : List String) (addr : Nat)
    (reltbl : SymbolTable) : Option (Int × List Nat × SymbolTable) :=
  match args with
  | [a0] =>
    match add_to_table fuel reltbl a0 addr with
    | none => none
    | some (_, tbl2) => some (0, [(opcode * 2 ^ 26) % 2 ^ 32], tbl2)
  | _ => some (-1, [], reltbl)

/-! ## Helper lemmas -/

/-- The copy-back loop never exits while the running index stays below
the bound, whatever the fuel. -/
theorem copyBackLoop_stuck (i bound : Nat) (h : i < bound) :
    ∀ fuel : Nat, copyBackLoop i bound fuel = none := by
  intro fuel
  induction fuel with
  | zero => simp [copyBackLoop, h]
  | succ n ih => simp [copyBackLoop, h, ih]

/-- On a nonempty table, a call of add_to_table that passes both error
checks runs out of any amount of fuel: the C code loops forever. -/
theorem add_to_table_stuck (fuel : Nat) (table : SymbolTable) (name : String) (addr : Nat)
    (ha : addr % 4 = 0) (hd : dupFound table.mode name table.tbl = false)
    (hl : 0 < table.tbl.length) :
    add_to_table fuel table name addr = none := by
  unfold add_to_table
  rw [if_neg (by omega)]
  rw [if_neg (by simp [hd])]
  rw [copyBackLoop_stuck 0 table.tbl.length hl fuel]

/-- A table scan in unique mode reports a duplicate whenever some entry
carries the name. -/
theorem dupFound_of_mem (mode : Int) (name : String) (l : List Symbol)
    (hm : mode = SYMTBL_UNIQUE_NAME) (h : ∃ s ∈ l, s.name = name) :
    dupFound mode name l = true := by
  induction l with
  | nil => simp at h
  | cons a rest ih =>
    obtain ⟨s, hs, hn⟩ := h
    rcases List.mem_cons.mp hs with rfl | hmem
    · simp [dupFound, hn, hm]
    · cases hcond : (a.name == name && mode == SYMTBL_UNIQUE_NAME) with
      | true => simp [dupFound, hcond]
      | false => simpa [dupFound, hcond] using ih ⟨s, hmem, hn⟩

/-- Every register number stored in the name map lies in 0..31. -/
theorem translate_reg_range (s : String) (h : translate_reg s ≠ -1) :
    ∃ n : Nat, n < 32 ∧ translate_reg s = (n : Int) := by
  unfold translate_reg at h ⊢
  cases hf : regList.find? (fun p => p.1 == s) with
  | none => rw [hf] at h; exact absurd rfl h
  | some p =>
    have hp : p ∈ regList := List.mem_of_find?_eq_some hf
    have hall : ∀ q ∈ regList, 0 ≤ q.2 ∧ q.2 < 32 := by decide
    have hb := hall p hp
    exact ⟨p.2.toNat, by omega, by show p.2 = ((p.2.toNat : Nat) : Int); omega⟩

/-- Lookup misses exactly when no entry carries the name. -/
theorem lookupAux_eq_neg_one (name : String) (l : List Symbol)
    (h : ∀ s ∈ l, s.name ≠ name) : lookupAux name l = -1 := by
  induction l with
  | nil => rfl
  | cons a rest ih =>
    have ha : (a.name == name) = false := by
      simpa using h a (List.mem_cons_self a rest)
    simp only [lookupAux, ha, if_neg]
    exact ih (fun s hs => h s (List.mem_cons_of_mem a hs))

/-- Lookup returns the address of the first entry carrying the name. -/
theorem lookupAux_first (name : String) :
    ∀ (l : List Symbol) (i : Nat) (hi : i < l.length),
      (l.get ⟨i, hi⟩).name = name →
      (∀ (j : Nat) (hj : j < i), (l.get ⟨j, Nat.lt_trans hj hi⟩).name ≠ name) →
      lookupAux name l = ((l.get ⟨i, hi⟩).addr : Int) := by
  intro l
  induction l with
  | nil => intro i hi; exact absurd hi (Nat.not_lt_zero i)
  | cons a rest ih =>
    intro i hi hname hfirst
    cases i with
    | zero =>
      simp only [List.get] at hname ⊢
      simp [lookupAux, hname]
    | succ k =>
      have hhead : a.name ≠ name := by
        have := hfirst 0 (Nat.succ_pos k)
        simpa using this
      have hbeq : (a.name == name) = false := by simpa using hhead
      simp only [lookupAux, hbeq, if_neg, Bool.false_eq_true]
      exact ih k (Nat.lt_of_succ_lt_succ hi) hname
        (fun j hj => hfirst (j + 1) (Nat.succ_lt_succ hj))

/-! ## Claim theorems -/

/-- C1: the claim says li with immediate 100 expands to 1 word and
432096 to 2 words, while the out-of-32-bit values fail with 0 words.
The li branch of write_pass_one (src/translate.c lines 46-48) is an
unfilled stub, so the code writes nothing and returns 0 on every li
line, including the two that the claim (and the repository test
test_write_pass_one) requires to succeed. This theorem evaluates the
embedded code on all four inputs of the claim. -/
theorem li_pass_one_stub :
    write_pass_one "li" ["$s0", "100"] = ([], 0) ∧
    write_pass_one "li" ["$s0", "432096"] = ([], 0) ∧
    write_pass_one "li" ["$s0", "4294967296"] = ([], 0) ∧
    write_pass_one "li" ["$s0", "-2147483649"] = ([], 0) := by
  decide

/-- C2: the claim says a branch whose displacement is misaligned, out
of reach, or too wide for the signed 16-bit field fails without
writing. The active write_branch performs none of those checks: with
the label far at 262144 and the branch at 0, the displacement over 4 is
65535, outside the signed 16-bit field, and the reachability helper
can_branch_to of the same file rejects the pair, yet write_branch
emits the word 0 and returns success. -/
theorem branch_unreachable_still_writes :
    can_branch_to 0 262144 = false ∧
    write_branch 4 ["$t0", "$t1", "far"] 0
        (SymbolTable.mk [Symbol.mk "far" 262144] SYMTBL_NON_UNIQUE) = (0, [0]) := by
  decide

/-- C3: the claim says add_to_table terminates and appends for any
number of existing entries. The copy-back loop at src/tables.c lines
132-135 never increments its index, so any insertion into a nonempty
table loops forever: with the table holding one entry (abc, 8) as in
the repository test test_table_1, the call adding (efg, 12) exits for
no amount of fuel. -/
theorem add_nonempty_diverges :
    ∀ fuel : Nat,
      add_to_table fuel (SymbolTable.mk [Symbol.mk "abc" 8] SYMTBL_UNIQUE_NAME) "efg" 12 =
        none :=
  fun fuel =>
    add_to_table_stuck fuel (SymbolTable.mk [Symbol.mk "abc" 8] SYMTBL_UNIQUE_NAME) "efg" 12
      (by decide) (by decide) (by decide)

/-- C4: the claim says write_jump always records the label into the
relocation table at the jump address and emits one word with zero
target field. Because add_to_table never returns on a nonempty table,
a jump assembled while the relocation table already holds one entry
(f, 0) never returns either, for any amount of fuel; nothing is
recorded and no word is emitted. -/
theorem write_jump_diverges :
    ∀ fuel : Nat,
      write_jump fuel 2 ["g"] 4 (SymbolTable.mk [Symbol.mk "f" 0] SYMTBL_NON_UNIQUE) = none := by
  intro fuel
  simp only [write_jump]
  rw [add_to_table_stuck fuel (SymbolTable.mk [Symbol.mk "f" 0] SYMTBL_NON_UNIQUE) "g" 4
    (by decide) (by decide) (by decide)]

/-- C5: encoding a register-register instruction with write_rtype and
decoding the 6/5/5/5/5/6 fields of the emitted word recovers opcode 0,
the two source registers, the destination register, shift amount 0 and
the function code, for every operand triple that translate_reg accepts
and every function code below 64 (all dispatched ones are). -/
theorem write_rtype_roundtrip (funct : Nat) (a0 a1 a2 : String) (hf : funct < 64)
    (h0 : translate_reg a0 ≠ -1) (h1 : translate_reg a1 ≠ -1) (h2 : translate_reg a2 ≠ -1) :
    ∃ w : Nat, write_rtype funct [a0, a1, a2] = (0, [w]) ∧
      w / 2 ^ 26 % 64 = 0 ∧
      ((w / 2 ^ 21 % 32 : Nat) : Int) = translate_reg a1 ∧
      ((w / 2 ^ 16 % 32 : Nat) : Int) = translate_reg a2 ∧
      ((w / 2 ^ 11 % 32 : Nat) : Int) = translate_reg a0 ∧
      w / 2 ^ 6 % 32 = 0 ∧
      w % 64 = funct := by
  obtain ⟨rd, hrd, erd⟩ := translate_reg_range a0 h0
  obtain ⟨rs, hrs, ers⟩ := translate_reg_range a1 h1
  obtain ⟨rt, hrt, ert⟩ := translate_reg_range a2 h2
  have p21 : (2 : Nat) ^ 21 = 2097152 := by norm_num
  have p16 : (2 : Nat) ^ 16 = 65536 := by norm_num
  have p11 : (2 : Nat) ^ 11 = 2048 := by norm_num
  have p26 : (2 : Nat) ^ 26 = 67108864 := by norm_num
  have p6 : (2 : Nat) ^ 6 = 64 := by norm_num
  have p32 : (2 : Nat) ^ 32 = 4294967296 := by norm_num
  refine ⟨rs * 2 ^ 21 + rt * 2 ^ 16 + rd * 2 ^ 11 + funct, ?_, ?_, ?_, ?_, ?_, ?_, ?_⟩
  · simp only [write_rtype]
    rw [erd, ers, ert]
    rw [if_neg (by omega)]
    simp only [Int.toNat_natCast]
    rw [p21, p16, p11, p32]
    rw [Nat.mod_eq_of_lt (by omega)]
  · rw [p26, p21, p16, p11]; omega
  · rw [ers]
    have hnat : (rs * 2 ^ 21 + rt * 2 ^ 16 + rd * 2 ^ 11 + funct) / 2 ^ 21 % 32 = rs := by
      rw [p21, p16, p11]; omega
    rw [hnat]
  · rw [ert]
    have hnat : (rs * 2 ^ 21 + rt * 2 ^ 16 + rd * 2 ^ 11 + funct) / 2 ^ 16 % 32 = rt := by
      rw [p21, p16, p11]; omega
    rw [hnat]
  · rw [erd]
    have hnat : (rs * 2 ^ 21 + rt * 2 ^ 16 + rd * 2 ^ 11 + funct) / 2 ^ 11 % 32 = rd := by
      rw [p21, p16, p11]; omega
    rw [hnat]
  · rw [p6, p21, p16, p11]; omega
  · rw [p21, p16, p11]; omega

/-- Witness for C5 at the concrete input addu with operands
a0, t0, s1 (function code 33). -/
theorem write_rtype_roundtrip_witness :
    ∃ w : Nat, write_rtype 33 ["$a0", "$t0", "$s1"] = (0, [w]) ∧
      w / 2 ^ 26 % 64 = 0 ∧
      ((w / 2 ^ 21 % 32 : Nat) : Int) = translate_reg "$t0" ∧
      ((w / 2 ^ 16 % 32 : Nat) : Int) = translate_reg "$s1" ∧
      ((w / 2 ^ 11 % 32 : Nat) : Int) = translate_reg "$a0" ∧
      w / 2 ^ 6 % 32 = 0 ∧
      w % 64 = 33 :=
  write_rtype_roundtrip 33 "$a0" "$t0" "$s1" (by decide) (by decide) (by decide) (by decide)

/-- C6: inserting a misaligned address fails with -1 and returns the
table unchanged, for every table, mode, name, address with a nonzero
remainder mod 4, and any fuel: the alignment check at src/tables.c
lines 98-101 runs before any mutation. -/
theorem add_misaligned_fails (fuel : Nat) (table : SymbolTable) (name : String) (addr : Nat)
    (h : addr % 4 ≠ 0) :
    add_to_table fuel table name addr = some (-1, table) := by
  simp [add_to_table, h]

/-- Witness for C6 at the concrete input (bob, 14) from the repository
test test_table_1. -/
theorem add_misaligned_fails_witness :
    add_to_table 0 (SymbolTable.mk [Symbol.mk "abc" 8] SYMTBL_UNIQUE_NAME) "bob" 14 =
      some (-1, SymbolTable.mk [Symbol.mk "abc" 8] SYMTBL_UNIQUE_NAME) :=
  add_misaligned_fails 0 (SymbolTable.mk [Symbol.mk "abc" 8] SYMTBL_UNIQUE_NAME) "bob" 14
    (by decide)

/-- C7: in unique-name mode, a second insertion of a name already in
the table fails with -1 and leaves the table unchanged, for any
word-aligned address and any fuel: the scan at src/tables.c lines
109-120 returns before any mutation. -/
theorem add_duplicate_unique_fails (fuel : Nat) (table : SymbolTable) (name : String)
    (addr : Nat) (hm : table.mode = SYMTBL_UNIQUE_NAME) (ha : addr % 4 = 0)
    (h : ∃ s ∈ table.tbl, s.name = name) :
    add_to_table fuel table name addr = some (-1, table) := by
  unfold add_to_table
  rw [if_neg (by omega)]
  rw [if_pos (dupFound_of_mem table.mode name table.tbl hm h)]

/-- Witness for C7 at the concrete input (q45, 24) against a table
already holding (q45, 16), from the repository test test_table_1. -/
theorem add_duplicate_unique_fails_witness :
    add_to_table 5 (SymbolTable.mk [Symbol.mk "q45" 16] SYMTBL_UNIQUE_NAME) "q45" 24 =
      some (-1, SymbolTable.mk [Symbol.mk "q45" 16] SYMTBL_UNIQUE_NAME) :=
  add_duplicate_unique_fails 5 (SymbolTable.mk [Symbol.mk "q45" 16] SYMTBL_UNIQUE_NAME)
    "q45" 24 rfl (by decide) ⟨Symbol.mk "q45" 16, List.mem_cons_self _ _, rfl⟩

/-- C8: get_addr_for_symbol returns -1 when no entry carries the name,
and otherwise the address of the first entry in insertion order that
carries it; the embedding is a pure function because the C code only
reads the table. -/
theorem get_addr_spec (table : SymbolTable) (name : String) :
    ((∀ s ∈ table.tbl, s.name ≠ name) → get_addr_for_symbol table name = -1) ∧
    (∀ (i : Nat) (hi : i < table.tbl.length),
      (table.tbl.get ⟨i, hi⟩).name = name →
      (∀ (j : Nat) (hj : j < i), (table.tbl.get ⟨j, Nat.lt_trans hj hi⟩).name ≠ name) →
      get_addr_for_symbol table name = ((table.tbl.get ⟨i, hi⟩).addr : Int)) :=
  ⟨fun h => lookupAux_eq_neg_one name table.tbl h,
   fun i hi hname hfirst => lookupAux_first name table.tbl i hi hname hfirst⟩

/-- Witness for C8 on a non-unique table holding (q45, 16) then
(q45, 24): lookup returns the first address 16. -/
theorem get_addr_spec_witness :
    get_addr_for_symbol
        (SymbolTable.mk [Symbol.mk "q45" 16, Symbol.mk "q45" 24] SYMTBL_NON_UNIQUE) "q45" =
      16 :=
  (get_addr_spec
      (SymbolTable.mk [Symbol.mk "q45" 16, Symbol.mk "q45" 24] SYMTBL_NON_UNIQUE) "q45").2
    0 (by decide) (by decide) (fun j hj => absurd hj (Nat.not_lt_zero j))

/-- C9: the claim says every ori immediate outside 0..65535 is
rejected without a write. The range actually passed to translate_num
at src/translate.c line 243 is 0 to UINT_MAX, so the immediate 65536
is accepted and added into the word, where it spills into the rt
field, and write_ori returns success having written one word. -/
theorem ori_accepts_oversized_immediate :
    translate_num "65536" 0 UINT_MAX = some 65536 ∧
    write_ori 13 ["$t0", "$t1", "65536"] = (0, [891879424]) := by
  decide

/-- C10: create_table stores the mode argument verbatim, and the scan
of add_to_table skips the duplicate check for any mode other than
SYMTBL_UNIQUE_NAME, so a duplicate insert into a mode-2 table is never
rejected; but the insert does not succeed either, because the
copy-back loop never exits on the nonempty table, for any fuel. -/
theorem mode_two_duplicate :
    create_table 2 = SymbolTable.mk [] 2 ∧
    dupFound 2 "x" [Symbol.mk "x" 0] = false ∧
    ∀ fuel : Nat, add_to_table fuel (SymbolTable.mk [Symbol.mk "x" 0] 2) "x" 4 = none :=
  ⟨rfl, by decide,
   fun fuel =>
     add_to_table_stuck fuel (SymbolTable.mk [Symbol.mk "x" 0] 2) "x" 4
       (by decide) (by decide) (by decide)⟩

end Assembler
